import Mathlib

/-!
Shallow embedding of the datazone product-data collection service.

JavaScript numbers are modelled as rationals (`ℚ`); JS strings as `String`;
`undefined`-able values as `Option`; thrown exceptions as `Except String`.
Platform built-ins that the repository merely calls (the WHATWG `URL`
constructor, the `Date` string parser, `nanoid`) are taken as function
parameters of the definitions that use them, so every theorem quantifies
over their behaviour.

Sources embedded here:
  packages/api/src/schemas/scraperapi.schema.ts
  packages/api/src/services/data-processor.ts
  packages/api/src/services/amazon-collector.ts
  packages/api/src/services/usage-tracker.ts  (src/unnamed/part_001)
  packages/api/src/services/scheduler.ts
  apps/server/src/workers/collection-worker.ts
-/

namespace Datazone

/-- Whitespace test used to model JS `\s` / `trim`. -/
def isWs (c : Char) : Bool := c.isWhitespace

/-- Model of `String.prototype.trim`: drop leading and trailing whitespace. -/
def jsTrimList (cs : List Char) : List Char :=
  ((cs.dropWhile isWs).reverse.dropWhile isWs).reverse

/-- `String.prototype.trim` on a `String`. -/
def jsTrim (s : String) : String := String.mk (jsTrimList s.data)

/-- Numeric value of a decimal digit character. -/
def digitVal (c : Char) : Nat := c.toNat - 48

/-- Value of a list of decimal digit characters. -/
def digitsToNat (ds : List Char) : Nat := ds.foldl (fun a c => a * 10 + digitVal c) 0

/-- Exponent part of a JS float literal: optional sign then digits; `none` when
no digit follows (JS `parseFloat` then ignores the exponent marker). -/
def parseExpDigits (cs : List Char) : Option Int :=
  match cs with
  | '-' :: rest =>
    let ds := (rest.span Char.isDigit).1
    if ds.isEmpty then none else some (-(digitsToNat ds : Int))
  | '+' :: rest =>
    let ds := (rest.span Char.isDigit).1
    if ds.isEmpty then none else some ((digitsToNat ds : Int))
  | _ =>
    let ds := (cs.span Char.isDigit).1
    if ds.isEmpty then none else some ((digitsToNat ds : Int))

/-- Model of JavaScript `parseFloat` on an already-trimmed character list:
optional sign, integer digits, optional fractional digits, optional exponent.
Returns `none` when no digit is found (JS `NaN`); trailing garbage after the
numeric prefix is ignored, as in JS. -/
def parseFloatCore (cs : List Char) : Option ℚ :=
  let sr : ℚ × List Char :=
    match cs with
    | '-' :: rest => (-1, rest)
    | '+' :: rest => (1, rest)
    | _ => (1, cs)
  let ip := sr.2.span Char.isDigit
  let fp : List Char × List Char :=
    match ip.2 with
    | '.' :: rest => rest.span Char.isDigit
    | _ => ([], ip.2)
  if ip.1.isEmpty && fp.1.isEmpty then none
  else
    let mant : ℚ := (digitsToNat ip.1 : ℚ) + (digitsToNat fp.1 : ℚ) / ((10 : ℚ) ^ fp.1.length)
    let ex : Option Int :=
      match fp.2 with
      | 'e' :: rest => parseExpDigits rest
      | 'E' :: rest => parseExpDigits rest
      | _ => none
    match ex with
    | some e => some (sr.1 * mant * (10 : ℚ) ^ e)
    | none => some (sr.1 * mant)

/-- JavaScript `parseFloat` on a string (leading whitespace skipped). -/
def jsParseFloat (s : String) : Option ℚ := parseFloatCore (jsTrimList s.data)

/-- A JS value that is either a string or a number (`z.union([z.string(), z.number()])`). -/
inductive StrOrNum where
  | str (s : String)
  | num (q : ℚ)
deriving DecidableEq

/-- JS `a || b` where `a` is an optional string: `undefined` and `""` are falsy. -/
def jsOrS (a : Option String) (b : String) : String :=
  match a with
  | some s => if s = "" then b else s
  | none => b

/-- JS `a || undefined` for an optional string: an empty string collapses to `undefined`. -/
def jsSomeS (a : Option String) : Option String :=
  match a with
  | some s => if s = "" then none else some s
  | none => none

/-- JS `a || b` where `a` is an optional number: `undefined` and `0` are falsy. -/
def jsOrQ (a : Option ℚ) (b : ℚ) : ℚ :=
  match a with
  | some q => if q = 0 then b else q
  | none => b

/-- JS `a || b` where `a` is an optional boolean. -/
def jsOrB (a : Option Bool) (b : Bool) : Bool :=
  match a with
  | some x => if x then true else b
  | none => b

/-! ## packages/api/src/schemas/scraperapi.schema.ts -/

/-- Characters removed by `parsePriceString`'s regex `[$,€£¥₹\s,]` before parsing. -/
def isPriceJunk (c : Char) : Bool :=
  c = '$' || c = ',' || c = '€' || c = '£' || c = '¥' || c = '₹' || c.isWhitespace

/-- Strip currency symbols, commas and whitespace, as in the source regex. -/
def stripPriceChars (s : String) : String :=
  String.mk (s.data.filter (fun c => !isPriceJunk c))

/-- `parsePriceString`: a number passes through; a string is cleaned and parsed
with `parseFloat`; a failed parse yields `undefined`. -/
def parsePriceString : StrOrNum → Option ℚ
  | .num q => some q
  | .str s => jsParseFloat (stripPriceChars s)

/-- The `price` field of a raw product: number, string, or structured object. -/
inductive PriceField where
  | num (q : ℚ)
  | str (s : String)
  | obj (current : ℚ) (original : Option ℚ) (currency : Option String)
deriving DecidableEq

/-- The `rating` field of a raw product: bare number or `{value, count}` object. -/
inductive RatingField where
  | num (q : ℚ)
  | obj (value : ℚ) (count : ℚ)
deriving DecidableEq

/-- The `seller` field of a raw product: bare string or `{name, rating?}` object. -/
inductive SellerField where
  | str (name : String)
  | obj (name : String) (rating : Option ℚ)
deriving DecidableEq

/-- A value conforming to `rawProductSchema` (all fields optional except as noted). -/
structure RawProduct where
  asin : Option String := none
  title : Option String := none
  name : Option String := none
  productName : Option String := none
  description : Option String := none
  price : Option PriceField := none
  pricing : Option StrOrNum := none
  list_price : Option StrOrNum := none
  currentPrice : Option ℚ := none
  originalPrice : Option ℚ := none
  currency : Option String := none
  images : Option (List String) := none
  image : Option String := none
  imageUrls : Option (List String) := none
  rating : Option RatingField := none
  averageRating : Option ℚ := none
  reviewCount : Option ℚ := none
  availability : Option String := none
  seller : Option SellerField := none
  sellerName : Option String := none
  specifications : Option (List (String × String)) := none
  features : Option (List String) := none
  brand : Option String := none
  category : Option String := none
deriving DecidableEq

/-- Normalized price object produced by the schema transform. -/
structure PriceObj where
  current : ℚ
  original : Option ℚ := none
  currency : String
deriving DecidableEq

/-- Normalized rating object. -/
structure RatingObj where
  value : ℚ
  count : ℚ
deriving DecidableEq

/-- Normalized seller object. -/
structure SellerObj where
  name : String
  rating : Option ℚ := none
deriving DecidableEq

/-- A raw review item as the collection worker reads it (ScraperAPI field-name
variants and canonical names side by side; `review.stars || review.rating` etc.). -/
structure WorkerRawReview where
  stars : Option ℚ := none
  rating : Option ℚ := none
  title : Option String := none
  review : Option String := none
  text : Option String := none
  username : Option String := none
  author : Option String := none
  date : Option String := none
  verified_purchase : Option Bool := none
  verified : Option Bool := none
  total_found_helpful : Option ℚ := none
  helpfulCount : Option ℚ := none
deriving DecidableEq

/-- Normalized product (`ProductData` in types/scraperapi.ts).  The three
`embedded*` fields model the client's untyped `(validatedData as any)._reviews`,
`._averageRating` and `._totalReviews` extensions. -/
structure ProductData where
  asin : String
  title : String
  description : Option String := none
  price : Option PriceObj := none
  images : Option (List String) := none
  rating : Option RatingObj := none
  availability : Option String := none
  seller : Option SellerObj := none
  specifications : Option (List (String × String)) := none
  features : Option (List String) := none
  brand : Option String := none
  category : Option String := none
  embeddedReviews : Option (List WorkerRawReview) := none
  embeddedAverageRating : Option ℚ := none
  embeddedTotalReviews : Option ℚ := none
deriving DecidableEq

/-- The current/original price extraction of `productDataSchema`'s transform.
Priority order: `pricing` first, then `price` as number, string or object,
then `currentPrice`; only the object branch can set the original price. -/
def extractCurrentOriginal (d : RawProduct) : Option ℚ × Option ℚ :=
  match d.pricing with
  | some p => (parsePriceString p, none)
  | none =>
    match d.price with
    | some (.num q) => (some q, none)
    | some (.str s) => (parsePriceString (.str s), none)
    | some (.obj c o _) => (some c, o)
    | none =>
      match d.currentPrice with
      | some q => (some q, none)
      | none => (none, none)

/-- The original-price fallback: when the extracted original is falsy
(`undefined` or `0`), try `list_price`, then the `originalPrice` field. -/
def originalFallback (d : RawProduct) (orig : Option ℚ) : Option ℚ :=
  let falsy := match orig with
    | none => true
    | some q => q = 0
  if falsy then
    match d.list_price with
    | some lp => parsePriceString lp
    | none =>
      match d.originalPrice with
      | some op => some op
      | none => orig
  else orig

/-- The whole price normalization of `productDataSchema`'s transform: a price
object is created only when a current price was extracted, with the currency
taken from the raw product's top-level `currency` field (default `"USD"`). -/
def normalizePriceObj (d : RawProduct) : Option PriceObj :=
  let co := extractCurrentOriginal d
  match co.1 with
  | some c => some { current := c, original := originalFallback d co.2, currency := jsOrS d.currency "USD" }
  | none => none

/-- Rating normalization: bare number (paired with `reviewCount || 0`),
`{value, count}` object, or the `averageRating` fallback field. -/
def normalizeRatingObj (d : RawProduct) : Option RatingObj :=
  match d.rating with
  | some (.num q) => some { value := q, count := (d.reviewCount.getD 0) }
  | some (.obj v c) => some { value := v, count := c }
  | none =>
    match d.averageRating with
    | some q => some { value := q, count := (d.reviewCount.getD 0) }
    | none => none

/-- Seller normalization: bare string, object, or truthy `sellerName` fallback. -/
def normalizeSellerObj (d : RawProduct) : Option SellerObj :=
  match d.seller with
  | some (.str s) => some { name := s }
  | some (.obj n r) => some { name := n, rating := r }
  | none =>
    match d.sellerName with
    | some n => if n = "" then none else some { name := n }
    | none => none

/-- Image coalescing: `data.images || data.imageUrls || (data.image ? [data.image] : [])`
(JS arrays are always truthy, even when empty). -/
def normalizeImages' (d : RawProduct) : List String :=
  match d.images with
  | some l => l
  | none =>
    match d.imageUrls with
    | some l => l
    | none =>
      match d.image with
      | some i => if i = "" then [] else [i]
      | none => []

/-- `productDataSchema`: refine (a present, non-blank ASIN) then transform into
the normalized `ProductData`; `none` models a zod parse failure. -/
def productDataSchema (d : RawProduct) : Option ProductData :=
  match d.asin with
  | none => none
  | some a =>
    if a = "" then none
    else if jsTrim a = "" then none
    else
      some
        { asin := a
          title := jsOrS d.title (jsOrS d.name (jsOrS d.productName "Untitled Product"))
          description := d.description
          price := normalizePriceObj d
          images := some (normalizeImages' d)
          rating := normalizeRatingObj d
          availability := d.availability
          seller := normalizeSellerObj d
          specifications := d.specifications
          features := d.features
          brand := d.brand
          category := d.category }

/-- A value conforming to the raw side of `reviewDataSchema`: `rating` is
required (number or string); the remaining fields are optional. -/
structure RawReview where
  rating : StrOrNum
  title : Option String := none
  text : Option String := none
  author : Option String := none
  date : Option String := none
  verified : Option Bool := none
  helpfulCount : Option StrOrNum := none
deriving DecidableEq

/-- Canonical review record (`ReviewData` in types/scraperapi.ts). -/
structure ReviewData where
  rating : ℚ
  title : Option String := none
  text : String := ""
  author : String := "Anonymous"
  date : Option String := none
  verified : Option Bool := none
  helpfulCount : Option ℚ := none
deriving DecidableEq

/-- The rating union of `reviewDataSchema`: a number must already lie in
`[1,5]` (`z.number().min(1).max(5)`; out of range fails both union branches and
rejects the review), while a string is parsed and clamped into `[1,5]`
(`NaN` parses to `0`). -/
def reviewRatingParse : StrOrNum → Option ℚ
  | .num q => if 1 ≤ q ∧ q ≤ 5 then some q else none
  | .str s =>
    some (match jsParseFloat s with
      | none => 0
      | some v => max 1 (min 5 v))

/-- `reviewDataSchema`: parse the rating, then apply the final transform
(title/date collapse to `undefined` when falsy, text/author defaults,
`verified || false`, helpfulCount parsed from string when needed). -/
def reviewDataSchema (r : RawReview) : Option ReviewData :=
  match reviewRatingParse r.rating with
  | none => none
  | some q =>
    some
      { rating := q
        title := jsSomeS r.title
        text := r.text.getD ""
        author := jsOrS r.author "Anonymous"
        date := jsSomeS r.date
        verified := some (jsOrB r.verified false)
        helpfulCount :=
          match r.helpfulCount with
          | none => none
          | some (.num q) => some q
          | some (.str s) => jsParseFloat s }

/-- Reviews response (`ReviewsResponse` in types/scraperapi.ts). -/
structure ReviewsResponse where
  reviews : List ReviewData
  averageRating : ℚ
  totalReviews : ℚ
deriving DecidableEq

/-! ## packages/api/src/services/data-processor.ts -/

/-- One step of modelling `replace(/\s+/g, " ")`: collapse each maximal
whitespace run to a single space (the flag records whether the previous
character was part of a run). -/
def collapseWsAux : Bool → List Char → List Char
  | _, [] => []
  | prevWs, c :: cs =>
    if isWs c then
      if prevWs then collapseWsAux true cs
      else ' ' :: collapseWsAux true cs
    else c :: collapseWsAux false cs

/-- `DataProcessor.normalizeText`: trim, then collapse internal whitespace. -/
def normalizeText (s : String) : String :=
  String.mk (collapseWsAux false (jsTrimList s.data))

/-- A character allowed by the regex class `[A-Z0-9]`. -/
def isAsinChar (c : Char) : Bool := ('A' ≤ c && c ≤ 'Z') || c.isDigit

/-- The regex `^B[A-Z0-9]{9}$`. -/
def asinFormat (s : String) : Bool :=
  match s.data with
  | 'B' :: rest => rest.length == 9 && rest.all isAsinChar
  | _ => false

/-- Model of `String.prototype.toUpperCase` (ASCII case map suffices for ASINs). -/
def jsToUpper (s : String) : String := String.mk (s.data.map Char.toUpper)

/-- `DataProcessor.validateASIN`: non-empty, then trim/uppercase, then the
fixed-format check; failures throw. -/
def validateASIN (asin : String) : Except String String :=
  if asin = "" then .error "Invalid ASIN: must be a non-empty string"
  else
    let cleaned := jsToUpper (jsTrim asin)
    if asinFormat cleaned then .ok cleaned
    else .error ("Invalid ASIN format: " ++ asin)

/-- `DataProcessor.isValidASIN`: the same check, non-throwing. -/
def isValidASIN (asin : Option String) : Bool :=
  match asin with
  | none => false
  | some a => if a = "" then false else asinFormat (jsToUpper (jsTrim a))

/-- `DataProcessor.validateRating`: rating must lie in `[1,5]` or an error is thrown. -/
def validateRating (rating : ℚ) : Except String ℚ :=
  if rating < 1 ∨ rating > 5 then
    .error ("Invalid rating: " ++ toString rating ++ ". Must be between 1 and 5.")
  else .ok rating

/-- `DataProcessor.normalizeImages`: keep only images the URL parser accepts
(`urlValid` models the platform `URL` constructor succeeding). -/
def normalizeImages (urlValid : String → Bool) (images : List String) : List String :=
  images.filter urlValid

/-- A character of the regex class `\w`. -/
def isWordChar (c : Char) : Bool := c.isAlphanum || c = '_'

/-- Try to match the regex `on\s+(\w+\s+\d+,\s+\d+)` at the head of the list,
returning the captured group.  All adjacent character classes of the pattern
are disjoint, so maximal munch coincides with the regex semantics. -/
def matchOnDate (cs : List Char) : Option (List Char) :=
  match cs with
  | 'o' :: 'n' :: rest =>
    let ws1 := rest.span isWs
    if ws1.1.isEmpty then none
    else
      let w := ws1.2.span isWordChar
      if w.1.isEmpty then none
      else
        let ws2 := w.2.span isWs
        if ws2.1.isEmpty then none
        else
          let d1 := ws2.2.span Char.isDigit
          if d1.1.isEmpty then none
          else
            match d1.2 with
            | ',' :: r5 =>
              let ws3 := r5.span isWs
              if ws3.1.isEmpty then none
              else
                let d2 := ws3.2.span Char.isDigit
                if d2.1.isEmpty then none
                else some (w.1 ++ ws2.1 ++ d1.1 ++ [','] ++ ws3.1 ++ d2.1)
            | _ => none
  | _ => none

/-- Leftmost match of `on\s+(\w+\s+\d+,\s+\d+)` anywhere in the list. -/
def scanOnDate : List Char → Option (List Char)
  | [] => none
  | c :: cs =>
    match matchOnDate (c :: cs) with
    | some cap => some cap
    | none => scanOnDate cs

/-- Whether `pat` is a leading segment of `text`. -/
def leadMatch : List Char → List Char → Bool
  | [], _ => true
  | _ :: _, [] => false
  | p :: ps, c :: cs => p == c && leadMatch ps cs

/-- Substring test (models `String.prototype.includes`). -/
def containsSub : List Char → List Char → Bool
  | [], pat => pat.isEmpty
  | c :: cs, pat => leadMatch pat (c :: cs) || containsSub cs pat

/-- `String.prototype.includes` on `String`s. -/
def strContains (s sub : String) : Bool := containsSub s.data sub.data

/-- `DataProcessor.parseDate`: for site-phrase dates, extract the fragment after
`on` and parse it; otherwise (or when that fails) parse the whole string.
`jsDate` models the platform `new Date(string)`; `none` is an invalid date. -/
def parseDate (jsDate : String → Option Int) (dateString : String) : Option Int :=
  if dateString = "" then none
  else
    let viaMatch : Option Int :=
      if strContains dateString "Reviewed" || strContains dateString "on " then
        match scanOnDate dateString.data with
        | some cap => jsDate (String.mk cap)
        | none => none
      else none
    match viaMatch with
    | some d => some d
    | none => jsDate dateString

/-- Persistence-ready product entity (`ProcessedProduct`). -/
structure ProcessedProduct where
  id : String
  asin : String
  title : String
  description : Option String := none
  brand : Option String := none
  category : Option String := none
  images : List String := []
  rating : Option ℚ := none
  reviewCount : ℚ := 0
  availability : Option String := none
  currency : String := "USD"
  specifications : List (String × String) := []
  features : List String := []
deriving DecidableEq

/-- Persistence-ready price snapshot (`ProcessedPrice`). -/
structure ProcessedPrice where
  id : String
  productId : String
  price : ℚ
  originalPrice : Option ℚ := none
  currency : String := "USD"
  availability : Option String := none
  sellerName : Option String := none
  sellerRating : Option ℚ := none
  primeEligible : Bool := false
deriving DecidableEq

/-- Persistence-ready review entity (`ProcessedReview`). -/
structure ProcessedReview where
  id : String
  productId : String
  rating : ℚ
  title : Option String := none
  text : String
  author : String
  date : Option Int := none
  verified : Bool := false
  helpfulCount : ℚ := 0
deriving DecidableEq

/-- `DataProcessor.processProduct`.  `freshId` models `nanoid()`; `urlValid`
models the `URL` constructor. -/
def processProduct (urlValid : String → Bool) (freshId : String)
    (data : ProductData) (productId : Option String) : Except String ProcessedProduct :=
  let id := jsOrS productId freshId
  match validateASIN data.asin with
  | .error e => .error e
  | .ok a =>
    .ok
      { id := id
        asin := a
        title := normalizeText data.title
        description := (jsSomeS data.description).map normalizeText
        brand := (jsSomeS data.brand).map normalizeText
        category := (jsSomeS data.category).map normalizeText
        images := normalizeImages urlValid (data.images.getD [])
        rating := data.rating.map (fun r => r.value)
        reviewCount := jsOrQ (data.rating.map (fun r => r.count)) 0
        availability := (jsSomeS data.availability).map normalizeText
        currency := jsOrS (data.price.map (fun p => p.currency)) "USD"
        specifications := data.specifications.getD []
        features := data.features.getD [] }

/-- `DataProcessor.processPrice`: `none` when the normalized input carries no
price, which is how the worker knows to skip persisting a snapshot. -/
def processPrice (freshId : String) (productData : ProductData) (productId : String) :
    Option ProcessedPrice :=
  match productData.price with
  | none => none
  | some p =>
    some
      { id := freshId
        productId := productId
        price := p.current
        originalPrice := p.original
        currency := jsOrS (some p.currency) "USD"
        availability := (jsSomeS productData.availability).map normalizeText
        sellerName := productData.seller.map (fun s => s.name)
        sellerRating := productData.seller.bind (fun s => s.rating)
        primeEligible := false }

/-- The filter of `DataProcessor.processReviews`: a review is kept only when
its text is non-empty after trimming and its rating is truthy and in `[1,5]`. -/
def reviewValid (r : ReviewData) : Bool :=
  if r.text = "" ∨ jsTrim r.text = "" then false
  else if r.rating = 0 ∨ r.rating < 1 ∨ r.rating > 5 then false
  else true

/-- The per-review map body of `processReviews`; the source's try/catch maps a
thrown error (only `validateRating` can throw here) to a dropped review. -/
def processReviewItem (jsDate : String → Option Int) (freshId : String)
    (productId : String) (review : ReviewData) : Option ProcessedReview :=
  match validateRating review.rating with
  | .error _ => none
  | .ok r =>
    some
      { id := freshId
        productId := productId
        rating := r
        title := (jsSomeS review.title).map normalizeText
        text := normalizeText review.text
        author := normalizeText (jsOrS (some review.author) "Anonymous")
        date :=
          match jsSomeS review.date with
          | some d => parseDate jsDate d
          | none => none
        verified := jsOrB review.verified false
        helpfulCount := jsOrQ review.helpfulCount 0 }

/-- `DataProcessor.processReviews`: filter invalid reviews, process the rest,
drop the (impossible-after-filtering) per-review failures.  `ids` models the
`nanoid()` supply, indexed by the position in the filtered list. -/
def processReviews (jsDate : String → Option Int) (ids : Nat → String)
    (reviewsData : ReviewsResponse) (productId : String) : List ProcessedReview :=
  ((reviewsData.reviews.filter reviewValid).mapIdx
      (fun i r => processReviewItem jsDate (ids i) productId r)).filterMap id

/-! ## packages/api/src/services/amazon-collector.ts -/

/-- Usage events of the collector: a `canMakeCall` gate, an external page
fetch, and a `recordUsage(1)`. -/
inductive UEv where
  | check
  | fetch (page : Nat)
  | record
deriving DecidableEq

/-- The error thrown by `checkUsageLimit` when the tracker refuses a call. -/
def quotaMsg : String :=
  "API usage limit reached. Please wait until next month or upgrade plan."

/-- The additional-page loop of `collectReviews`.  `allow` models the usage
tracker's verdict, indexed by how many checks have run so far; `pages` models
`client.getProductReviews(asin, page)`.  The source loop runs while the
accumulated reviews are below `limit` and `currentPage <= 5`; each iteration is
check, fetch, record, append, then break on an empty page or advance.  `fuel`
makes the recursion structural; the loop is entered with `currentPage = 2` and
`fuel = 4`, which the `currentPage <= 5` bound never outruns. -/
def reviewLoop (allow : Nat → Bool) (pages : Nat → ReviewsResponse) (limit : Nat) :
    Nat → Nat → List ReviewData → Nat → Except String (List ReviewData) × List UEv
  | 0, _, acc, _ => (.ok acc, [])
  | fuel + 1, currentPage, acc, checks =>
    if acc.length < limit ∧ currentPage ≤ 5 then
      if allow checks then
        let pr := pages currentPage
        let acc1 := acc ++ pr.reviews
        if pr.reviews.length = 0 then
          (.ok acc1, [.check, .fetch currentPage, .record])
        else
          let rest := reviewLoop allow pages limit fuel (currentPage + 1) acc1 (checks + 1)
          (rest.1, [.check, .fetch currentPage, .record] ++ rest.2)
      else (.error quotaMsg, [.check])
    else (.ok acc, [])

/-- `AmazonCollector.collectReviews`: fetch page 1; when a truthy `limit` is
given and page 1 fell short, run the additional-page loop and slice to the
limit; a truthy `limit` also slices the single-page result.  Returns the
response (or the propagated quota error) together with the usage-event trace.
The JS `limit` is a number used only as a count, modelled as `Option Nat`;
`some 0` is falsy in the source's `if (options.limit ...)` tests. -/
def collectReviews (allow : Nat → Bool) (pages : Nat → ReviewsResponse)
    (limit : Option Nat) : Except String ReviewsResponse × List UEv :=
  if allow 0 then
    let response := pages 1
    let t0 : List UEv := [.check, .fetch 1, .record]
    match limit with
    | some l =>
      if l ≠ 0 ∧ response.reviews.length < l then
        let r := reviewLoop allow pages l 4 2 response.reviews 1
        (r.1.map (fun all =>
          { reviews := all.take l
            averageRating := response.averageRating
            totalReviews := response.totalReviews }), t0 ++ r.2)
      else if l ≠ 0 then
        (.ok { response with reviews := response.reviews.take l }, t0)
      else (.ok response, t0)
    | none => (.ok response, t0)
  else (.error quotaMsg, [.check])

/-! ## packages/api/src/services/usage-tracker.ts (src/unnamed/part_001) -/

/-- A wall-clock date, reduced to the fields `getCurrentMonth` reads
(`getFullYear()` and `getMonth() + 1`). -/
structure JsDate where
  year : Nat
  month : Nat
deriving DecidableEq

/-- `String(n).padStart(2, "0")`. -/
def pad2 (n : Nat) : String := if n < 10 then "0" ++ toString n else toString n

/-- `UsageTracker.getCurrentMonth`: the `YYYY-MM` key of a date. -/
def getCurrentMonthKey (d : JsDate) : String := toString d.year ++ "-" ++ pad2 d.month

/-- A row of the `api_usage` table. -/
structure ApiUsage where
  id : String
  month : String
  callsUsed : Nat
  callsLimit : Nat
deriving DecidableEq

/-- The tracker instance state: the limit and the `currentMonth` field. -/
structure UsageTracker where
  monthlyLimit : Nat
  currentMonth : String
deriving DecidableEq

/-- The `UsageTracker` constructor: computes the month key once from the
construction-time clock and caches it in `this.currentMonth`. -/
def UsageTracker.create (monthlyLimit : Nat) (constructedAt : JsDate) : UsageTracker :=
  { monthlyLimit := monthlyLimit, currentMonth := getCurrentMonthKey constructedAt }

/-- `UsageTracker.getCurrentUsage`: select (or lazily create) the usage row
whose month equals `this.currentMonth`.  `now` is the wall-clock date at call
time: the source never consults it, reading only the cached field.  `freshId`
models `crypto.randomUUID()`. -/
def getCurrentUsage (t : UsageTracker) (now : JsDate) (freshId : String)
    (store : List ApiUsage) : ApiUsage × List ApiUsage :=
  match store.find? (fun r => r.month == t.currentMonth) with
  | some r => (r, store)
  | none =>
    let r : ApiUsage :=
      { id := freshId, month := t.currentMonth, callsUsed := 0, callsLimit := t.monthlyLimit }
    (r, store ++ [r])

/-- `UsageTracker.canMakeCall`. -/
def canMakeCall (t : UsageTracker) (now : JsDate) (freshId : String)
    (store : List ApiUsage) : Bool :=
  let u := (getCurrentUsage t now freshId store).1
  u.callsUsed < u.callsLimit

/-- `UsageTracker.recordUsage`: read-then-write increment of the current row,
keyed by the row id returned by `getCurrentUsage`. -/
def recordUsage (t : UsageTracker) (now : JsDate) (freshId : String) (calls : Nat)
    (store : List ApiUsage) : List ApiUsage :=
  let ur := getCurrentUsage t now freshId store
  ur.2.map (fun r => if r.id == ur.1.id then { r with callsUsed := ur.1.callsUsed + calls } else r)

/-- `UsageTracker.getRemainingCalls` (`Math.max(0, limit - used)`; `Nat`
subtraction already truncates at zero). -/
def getRemainingCalls (t : UsageTracker) (now : JsDate) (freshId : String)
    (store : List ApiUsage) : Nat :=
  let u := (getCurrentUsage t now freshId store).1
  u.callsLimit - u.callsUsed

/-- The `month` field of `UsageTracker.getUsageStats`, which is also the month
key every operation above reads and writes. -/
def getUsageStatsMonth (t : UsageTracker) (now : JsDate) (freshId : String)
    (store : List ApiUsage) : String :=
  (getCurrentUsage t now freshId store).1.month

/-! ## Job records (packages/db scrape_jobs) and the scheduler -/

/-- Persisted job status.  The database enum lists four values; `suspended` is
the operator-settable side-channel state the worker checks for. -/
inductive JobStatus where
  | pending
  | running
  | completed
  | failed
  | suspended
deriving DecidableEq

/-- Job type; `unknown` models a runtime value outside the typed union,
which the worker's dispatch `default` branch treats as fatal. -/
inductive JobType where
  | product
  | search
  | review
  | price_update
  | unknown (s : String)
deriving DecidableEq

/-- Queue job payload (`JobData` in job-queue.ts). -/
structure JobData where
  type : JobType
  asin : Option String := none
  keyword : Option String := none
  limit : Option Nat := none
  country : Option String := none
deriving DecidableEq

/-- A row of the `scrape_jobs` table. -/
structure ScrapeJob where
  id : String
  type : JobType
  status : JobStatus
  input : Option JobData := none
  output : Option String := none
  error : Option String := none
  isScheduled : Bool := false
  apiCallsUsed : Nat := 0
  startedAt : Option Nat := none
  completedAt : Option Nat := none
  createdAt : Nat := 0
  updatedAt : Nat := 0
deriving DecidableEq

/-- `JobScheduler.cancelScheduledJob`: remove the queue entry for `jobId`,
then update the job table — the `where` clause matches on
`status = "pending"`, not on the job id. -/
def cancelScheduledJob (jobId : String) (now : Nat) (queue : List String)
    (jobs : List ScrapeJob) : List String × List ScrapeJob :=
  (queue.filter (fun q => !(q == jobId)),
   jobs.map (fun j =>
     if j.status = .pending then
       { j with status := .failed, error := some "Cancelled by user", completedAt := some now }
     else j))

/-! ## apps/server/src/workers/collection-worker.ts -/

/-- `select ... where id = jobId limit 1`. -/
def findJob (t : List ScrapeJob) (jobId : String) : Option ScrapeJob :=
  t.find? (fun j => j.id == jobId)

/-- `update scrape_jobs set status = running, startedAt, updatedAt where id = jobId`. -/
def setRunning (t : List ScrapeJob) (jobId : String) (now : Nat) : List ScrapeJob :=
  t.map (fun j =>
    if j.id == jobId then
      { j with status := .running, startedAt := some now, updatedAt := now }
    else j)

/-- `update ... set status = completed, completedAt, updatedAt where id = jobId`. -/
def markCompleted (t : List ScrapeJob) (jobId : String) (now : Nat) : List ScrapeJob :=
  t.map (fun j =>
    if j.id == jobId then
      { j with status := .completed, completedAt := some now, updatedAt := now }
    else j)

/-- `update ... set status = failed, error, completedAt, updatedAt where id = jobId`. -/
def markFailed (t : List ScrapeJob) (jobId : String) (e : String) (now : Nat) :
    List ScrapeJob :=
  t.map (fun j =>
    if j.id == jobId then
      { j with status := .failed, error := some e, completedAt := some now, updatedAt := now }
    else j)

/-- The row the worker inserts when no job record exists at dequeue time. -/
def newRunningRecord (jobId : String) (jobData : JobData) (now : Nat) : ScrapeJob :=
  { id := jobId
    type := jobData.type
    status := .running
    input := some jobData
    isScheduled := false
    startedAt := some now
    createdAt := now
    updatedAt := now }

/-- Whether the dequeue-time protocol goes on to dispatch a handler. -/
inductive DequeueOutcome where
  | skip
  | proceed
deriving DecidableEq

/-- The dequeue-time reconciliation protocol of `CollectionWorker.processJob`:
look up the record; suspended means skip; found means update-to-running; not
found means insert, where a uniqueness conflict (the row exists by insert
time — `concurrent` models a racing producer insert landing between the select
and the insert) is handled by re-reading and falling back to the update, while
any other insert failure (`insertFault`, an environment fault such as a lost
connection) propagates.  The inner not-found-on-recheck branch rethrows the
original duplicate-key error; in this atomic-store model it is unreachable. -/
def dequeueStep (jobId : String) (jobData : JobData) (now : Nat)
    (concurrent : Option ScrapeJob) (insertFault : Option String)
    (t : List ScrapeJob) : Except String (List ScrapeJob × DequeueOutcome) :=
  match findJob t jobId with
  | some existingJob =>
    if existingJob.status = .suspended then .ok (t, .skip)
    else .ok (setRunning t jobId now, .proceed)
  | none =>
    let t1 :=
      match concurrent with
      | some c => t ++ [c]
      | none => t
    if (findJob t1 jobId).isSome then
      match findJob t1 jobId with
      | some _ => .ok (setRunning t1 jobId now, .proceed)
      | none => .error "duplicate key value violates unique constraint"
    else
      match insertFault with
      | some e => .error e
      | none => .ok (t1 ++ [newRunningRecord jobId jobData now], .proceed)

/-- A row of the `products` table (the processed entity plus timestamps). -/
structure ProductRow extends ProcessedProduct where
  createdAt : Nat := 0
  updatedAt : Nat := 0
deriving DecidableEq

/-- The relational store as the worker touches it. -/
structure Db where
  jobs : List ScrapeJob
  products : List ProductRow
  prices : List ProcessedPrice
  reviews : List ProcessedReview
deriving DecidableEq

/-- `insert into products values (processed)` with timestamp defaults. -/
def newProductRow (p : ProcessedProduct) (now : Nat) : ProductRow :=
  { toProcessedProduct := p, createdAt := now, updatedAt := now }

/-- `update products set {...processed, id: productId, updatedAt} where id`. -/
def updateProductRow (row : ProductRow) (p : ProcessedProduct) (now : Nat) : ProductRow :=
  { toProcessedProduct := { p with id := row.id }, createdAt := row.createdAt, updatedAt := now }

/-- `delete from reviews where productId = productId`. -/
def deleteReviewsFor (rs : List ProcessedReview) (productId : String) : List ProcessedReview :=
  rs.filter (fun rv => !(rv.productId == productId))

/-- The leading review-title artifact regex
`^\d+\.?\d*\s+out\s+of\s+\d+\s+stars\s*\n*\s*` (case-insensitive): returns the
remainder after the matched artifact, or `none` when it does not match.  All
adjacent character classes are disjoint, so maximal munch is exact. -/
def matchStarsArtifact (cs : List Char) : Option (List Char) :=
  let d1 := cs.span Char.isDigit
  if d1.1.isEmpty then none
  else
    let rest1 :=
      match d1.2 with
      | '.' :: r => (r.span Char.isDigit).2
      | r => r
    let ws1 := rest1.span isWs
    if ws1.1.isEmpty then none
    else
      match ws1.2 with
      | o :: u :: t :: rest2 =>
        if o.toLower = 'o' ∧ u.toLower = 'u' ∧ t.toLower = 't' then
          let ws2 := rest2.span isWs
          if ws2.1.isEmpty then none
          else
            match ws2.2 with
            | o2 :: f2 :: rest3 =>
              if o2.toLower = 'o' ∧ f2.toLower = 'f' then
                let ws3 := rest3.span isWs
                if ws3.1.isEmpty then none
                else
                  let d2 := ws3.2.span Char.isDigit
                  if d2.1.isEmpty then none
                  else
                    let ws4 := d2.2.span isWs
                    if ws4.1.isEmpty then none
                    else
                      match ws4.2 with
                      | s1 :: t1 :: a1 :: r1 :: s2 :: rest4 =>
                        if s1.toLower = 's' ∧ t1.toLower = 't' ∧ a1.toLower = 'a' ∧
                            r1.toLower = 'r' ∧ s2.toLower = 's' then
                          some (rest4.dropWhile isWs)
                        else none
                      | _ => none
              else none
            | _ => none
        else none
      | _ => none

/-- `reviewTitle.replace(artifactRegex, "")`. -/
def stripStarsArtifact (s : String) : String :=
  match matchStarsArtifact s.data with
  | some rest => String.mk rest
  | none => s

/-- The worker's per-review field transform (used for both embedded reviews
and separately fetched ones): coalesce ScraperAPI field-name variants with
`||` fallbacks and strip the leading star artifact from a truthy title. -/
def transformWorkerReview (r : WorkerRawReview) : ReviewData :=
  let reviewTitle : Option String :=
    match r.title with
    | none => none
    | some t =>
      if t = "" then some t
      else
        let t1 := jsTrim (stripStarsArtifact t)
        if t1 = "" then none else some t1
  { rating := jsOrQ r.stars (jsOrQ r.rating 0)
    title := reviewTitle
    text := jsOrS r.review (jsOrS r.text "")
    author := jsOrS r.username (jsOrS r.author "Anonymous")
    date := jsSomeS r.date
    verified := some (jsOrB r.verified_purchase (jsOrB r.verified false))
    helpfulCount := some (jsOrQ r.total_found_helpful (jsOrQ r.helpfulCount 0)) }

/-- A typed `ReviewData` as the untyped object the worker transform reads. -/
def ofReviewData (r : ReviewData) : WorkerRawReview :=
  { rating := some r.rating
    title := r.title
    text := some r.text
    author := some r.author
    date := r.date
    verified := r.verified
    helpfulCount := r.helpfulCount }

/-- The product handler's fatal no-data message. -/
def noFetchMsg (asin : String) : String :=
  "Failed to fetch product data for ASIN: " ++ asin ++
    ". Product validation failed or product not found. ScraperAPI have returned invalid data."

/-- `CollectionWorker.processProductJob`.  `fetchProduct` models
`collector.collectProductByASIN` (which may throw, e.g. the quota error);
`fetchReviews` models `collector.collectReviews({asin, limit: 50})`.  `ids`
is the `nanoid()` supply.  In this model the only throwing steps run before
the first write, so `Except` carries no partial state. -/
def processProductJob (fetchProduct : Except String (Option ProductData))
    (fetchReviews : Except String ReviewsResponse)
    (urlValid : String → Bool) (jsDate : String → Option Int) (ids : Nat → String)
    (data : JobData) (now : Nat) (db : Db) : Except String Db :=
  match data.asin with
  | none => .error "ASIN is required for product job"
  | some asin =>
    if asin = "" then .error "ASIN is required for product job"
    else
      let existingProduct := db.products.find? (fun p => p.asin == asin)
      match fetchProduct with
      | .error e => .error e
      | .ok none =>
        if existingProduct.isSome then .ok db
        else .error (noFetchMsg asin)
      | .ok (some productData) =>
        match processProduct urlValid (ids 0) productData none with
        | .error e => .error e
        | .ok processed =>
          let existing := db.products.find? (fun p => p.asin == asin)
          let pid : String :=
            match existing with
            | some row => row.id
            | none => processed.id
          let db1 : Db :=
            match existing with
            | some row =>
              { db with products := db.products.map (fun p =>
                  if p.id == row.id then updateProductRow p processed now else p) }
            | none => { db with products := db.products ++ [newProductRow processed now] }
          let db2 : Db :=
            match processPrice (ids 1) productData pid with
            | some price => { db1 with prices := db1.prices ++ [price] }
            | none => db1
          let rtp : List WorkerRawReview × ℚ × ℚ :=
            match productData.embeddedReviews with
            | some l =>
              (l, jsOrQ productData.embeddedAverageRating 0,
                jsOrQ productData.embeddedTotalReviews (l.length : ℚ))
            | none =>
              match fetchReviews with
              | .error _ => ([], 0, 0)
              | .ok resp =>
                if resp.reviews.length > 0 then
                  (resp.reviews.map ofReviewData, resp.averageRating, resp.totalReviews)
                else ([], 0, 0)
          let db3 : Db :=
            if rtp.1.length > 0 then
              let transformed := rtp.1.map transformWorkerReview
              let resp : ReviewsResponse :=
                { reviews := transformed, averageRating := rtp.2.1, totalReviews := rtp.2.2 }
              let processedReviews := processReviews jsDate (fun k => ids (2 + k)) resp pid
              { db2 with reviews := deleteReviewsFor db2.reviews pid ++ processedReviews }
            else db2
          .ok db3

/-- The search, review and price_update handlers, taken as oracles (each maps
the store to a new store and an optional thrown error); the claims under
verification never reach their bodies, so every theorem quantifies over them. -/
structure HandlerOracles where
  search : Db → Db × Option String
  review : Db → Db × Option String
  priceUpdate : Db → Db × Option String

/-- `CollectionWorker.processJob`: the dequeue-time protocol, dispatch by job
type, then finalization — completed on handler success, failed (with the
error's message) and a re-thrown error otherwise.  The second component is
the error the promise rejects with, `none` on success or suspended skip. -/
def processJob (h : HandlerOracles)
    (fetchProduct : Except String (Option ProductData))
    (fetchReviews : Except String ReviewsResponse)
    (urlValid : String → Bool) (jsDate : String → Option Int) (ids : Nat → String)
    (jobId : String) (jobData : JobData) (now : Nat)
    (concurrent : Option ScrapeJob) (insertFault : Option String)
    (db : Db) : Db × Option String :=
  match dequeueStep jobId jobData now concurrent insertFault db.jobs with
  | .error e => ({ db with jobs := markFailed db.jobs jobId e now }, some e)
  | .ok (jobs1, .skip) => ({ db with jobs := jobs1 }, none)
  | .ok (jobs1, .proceed) =>
    let db1 : Db := { db with jobs := jobs1 }
    let step : Db × Option String :=
      match jobData.type with
      | .product =>
        match processProductJob fetchProduct fetchReviews urlValid jsDate ids jobData now db1 with
        | .ok d => (d, none)
        | .error e => (db1, some e)
      | .search => h.search db1
      | .review => h.review db1
      | .price_update => h.priceUpdate db1
      | .unknown s => (db1, some ("Unknown job type: " ++ s))
    match step.2 with
    | none => ({ step.1 with jobs := markCompleted step.1.jobs jobId now }, none)
    | some e => ({ step.1 with jobs := markFailed step.1.jobs jobId e now }, some e)

/-! ## Helper lemmas -/

/-- `find?` by id commutes with an id-preserving conditional row update. -/
lemma findJob_map_update (t : List ScrapeJob) (jobId : String) (f : ScrapeJob → ScrapeJob)
    (hf : ∀ j, (f j).id = j.id) :
    findJob (t.map (fun j => if j.id == jobId then f j else j)) jobId
      = (findJob t jobId).map f := by
  induction t with
  | nil => rfl
  | cons a t ih =>
    rw [List.map_cons]
    unfold findJob at ih ⊢
    by_cases ha : (a.id == jobId) = true
    · have hfa : ((f a).id == jobId) = true := by rw [hf]; exact ha
      rw [if_pos ha, List.find?_cons_of_pos, List.find?_cons_of_pos]
      · rfl
      · exact ha
      · exact hfa
    · rw [if_neg ha, List.find?_cons_of_neg, List.find?_cons_of_neg]
      · exact ih
      · exact ha
      · exact ha

/-- `filter` by id commutes with an id-preserving conditional row update. -/
lemma filterJob_map_update (t : List ScrapeJob) (jobId : String) (f : ScrapeJob → ScrapeJob)
    (hf : ∀ j, (f j).id = j.id) :
    (t.map (fun j => if j.id == jobId then f j else j)).filter (fun j => j.id == jobId)
      = (t.filter (fun j => j.id == jobId)).map f := by
  induction t with
  | nil => rfl
  | cons a t ih =>
    rw [List.map_cons]
    by_cases ha : (a.id == jobId) = true
    · have hfa : ((f a).id == jobId) = true := by rw [hf]; exact ha
      rw [if_pos ha, List.filter_cons_of_pos, List.filter_cons_of_pos, List.map_cons, ih]
      · exact ha
      · exact hfa
    · rw [if_neg ha, List.filter_cons_of_neg, List.filter_cons_of_neg]
      · exact ih
      · exact ha
      · exact ha

/-- A `findJob` miss means no row has the id. -/
lemma findJob_none_filter (t : List ScrapeJob) (jobId : String)
    (h : findJob t jobId = none) : t.filter (fun j => j.id == jobId) = [] := by
  rw [List.filter_eq_nil_iff]
  intro a ha
  have := List.find?_eq_none.mp h a ha
  simpa using this

/-! ## Claim theorems -/

/-- C10: in product-schema price normalization, the multi-field fallback is
selected by field presence, not parse success: whenever the `pricing` field is
present but fails to parse, no price object is produced — even if a valid
numeric `price` field is also present — and downstream `processPrice` returns
none. -/
theorem spec_c10 : ∀ (d : RawProduct) (p : StrOrNum), d.pricing = some p →
    parsePriceString p = none →
    ∀ pd, productDataSchema d = some pd →
      pd.price = none ∧ ∀ fid pidStr, processPrice fid pd pidStr = none := by
  intro d p hp hparse pd hpd
  have hprice : normalizePriceObj d = none := by
    simp only [normalizePriceObj, extractCurrentOriginal, hp, hparse]
  have hpdprice : pd.price = none := by
    rcases hA : d.asin with _ | a
    · simp only [productDataSchema, hA] at hpd
      exact Option.noConfusion hpd
    · simp only [productDataSchema, hA] at hpd
      by_cases hemp : a = ""
      · rw [if_pos hemp] at hpd
        exact Option.noConfusion hpd
      · rw [if_neg hemp] at hpd
        by_cases htr : jsTrim a = ""
        · rw [if_pos htr] at hpd
          exact Option.noConfusion hpd
        · rw [if_neg htr] at hpd
          have hc := Option.some.inj hpd
          rw [← hc]
          show normalizePriceObj d = none
          exact hprice
  refine ⟨hpdprice, ?_⟩
  intro fid pidStr
  unfold processPrice
  rw [hpdprice]

/-- C10 witness: a concrete raw product whose `pricing` is the unparseable
string `"N/A"` while `price` is the valid number `188`; the normalized product
carries no price and `processPrice` returns none. -/
theorem spec_c10_witness :
    ({ asin := "B000000000", title := "Untitled Product", images := some [] }
        : ProductData).price = none ∧
      ∀ fid pidStr, processPrice fid
        { asin := "B000000000", title := "Untitled Product", images := some [] } pidStr = none :=
  spec_c10
    { asin := some "B000000000", pricing := some (.str "N/A"), price := some (.num 188) }
    (.str "N/A") rfl rfl
    { asin := "B000000000", title := "Untitled Product", images := some [] } rfl

/-- C9: `cancelScheduledJob(jobId)` updates the persisted records by a blanket
status match, not by the job id — every pending record (whatever its id)
becomes failed with error "Cancelled by user", no pending record survives, and
a record for `jobId` whose status is not pending is left unchanged. -/
theorem spec_c9 : ∀ (jobId : String) (now : Nat) (q : List String) (t : List ScrapeJob),
    (∀ j ∈ t, j.status = JobStatus.pending →
      ({ j with
          status := JobStatus.failed
          error := some "Cancelled by user"
          completedAt := some now } : ScrapeJob) ∈ (cancelScheduledJob jobId now q t).2) ∧
    (∀ j ∈ t, j.id = jobId → j.status ≠ JobStatus.pending →
      j ∈ (cancelScheduledJob jobId now q t).2) ∧
    (∀ j2 ∈ (cancelScheduledJob jobId now q t).2, j2.status ≠ JobStatus.pending) := by
  intro jobId now q t
  refine ⟨?_, ?_, ?_⟩
  · intro j hj hp
    have : ({ j with
        status := JobStatus.failed
        error := some "Cancelled by user"
        completedAt := some now } : ScrapeJob)
        = (fun j => if j.status = JobStatus.pending then
            { j with
              status := JobStatus.failed
              error := some "Cancelled by user"
              completedAt := some now } else j) j := by
      simp [hp]
    rw [this]
    exact List.mem_map_of_mem _ hj
  · intro j hj _ hnp
    exact List.mem_map.mpr ⟨j, hj, by simp [hnp]⟩
  · intro j2 hj2
    rcases List.mem_map.mp hj2 with ⟨j, _, hfj⟩
    by_cases hp : j.status = JobStatus.pending
    · rw [← hfj]
      simp [hp]
    · rw [← hfj]
      simp [hp]

/-- C9 witness: a store with an unrelated pending job `other` and a
non-pending record for the cancelled id `target`: cancelling `target` marks
`other` failed with "Cancelled by user" and leaves `target` unchanged. -/
theorem spec_c9_witness :
    ({ id := "other", type := JobType.product, status := JobStatus.failed,
        error := some "Cancelled by user", completedAt := some 5 } : ScrapeJob)
      ∈ (cancelScheduledJob "target" 5 []
          [{ id := "other", type := JobType.product, status := JobStatus.pending },
           { id := "target", type := JobType.price_update, status := JobStatus.running }]).2 ∧
    ({ id := "target", type := JobType.price_update, status := JobStatus.running } : ScrapeJob)
      ∈ (cancelScheduledJob "target" 5 []
          [{ id := "other", type := JobType.product, status := JobStatus.pending },
           { id := "target", type := JobType.price_update, status := JobStatus.running }]).2 := by
  constructor
  · exact (spec_c9 "target" 5 []
      [{ id := "other", type := JobType.product, status := JobStatus.pending },
       { id := "target", type := JobType.price_update, status := JobStatus.running }]).1
      { id := "other", type := JobType.product, status := JobStatus.pending }
      (by simp) rfl
  · exact (spec_c9 "target" 5 []
      [{ id := "other", type := JobType.product, status := JobStatus.pending },
       { id := "target", type := JobType.price_update, status := JobStatus.running }]).2.1
      { id := "target", type := JobType.price_update, status := JobStatus.running }
      (by simp) rfl (by decide)

/-- C8 counterexample: on a tracker constructed in January 2025, a call made in
February 2025 and a call made in January 2025 operate on the same month key,
and the February call's key is not the February wall-clock key — contradicting
the claim that the month key is computed from wall-clock time at each call. -/
theorem spec_c8_counterexample :
    getUsageStatsMonth (UsageTracker.create 1000 { year := 2025, month := 1 })
        { year := 2025, month := 2 } "u1" []
      = getUsageStatsMonth (UsageTracker.create 1000 { year := 2025, month := 1 })
        { year := 2025, month := 1 } "u1" [] ∧
    getUsageStatsMonth (UsageTracker.create 1000 { year := 2025, month := 1 })
        { year := 2025, month := 2 } "u1" []
      ≠ getCurrentMonthKey { year := 2025, month := 2 } := by
  constructor
  · rfl
  · decide

/-- C8 amended: the month key is computed once at tracker construction and
cached on the instance; `canMakeCall`, `recordUsage`, `getRemainingCalls` and
the usage-stats month all use the construction-time key on every call,
whatever the wall-clock date at call time — so two calls made in different
calendar months on the same instance use the same (construction-time) key. -/
theorem spec_c8_amended :
    ∀ (limit : Nat) (ctor now1 now2 : JsDate) (fid : String) (store : List ApiUsage),
      getUsageStatsMonth (UsageTracker.create limit ctor) now1 fid store
        = getCurrentMonthKey ctor ∧
      getUsageStatsMonth (UsageTracker.create limit ctor) now1 fid store
        = getUsageStatsMonth (UsageTracker.create limit ctor) now2 fid store ∧
      canMakeCall (UsageTracker.create limit ctor) now1 fid store
        = canMakeCall (UsageTracker.create limit ctor) now2 fid store ∧
      recordUsage (UsageTracker.create limit ctor) now1 fid 1 store
        = recordUsage (UsageTracker.create limit ctor) now2 fid 1 store ∧
      getRemainingCalls (UsageTracker.create limit ctor) now1 fid store
        = getRemainingCalls (UsageTracker.create limit ctor) now2 fid store := by
  intro limit ctor now1 now2 fid store
  refine ⟨?_, rfl, rfl, rfl, rfl⟩
  unfold getUsageStatsMonth getCurrentUsage
  cases hf : store.find? (fun r => r.month == (UsageTracker.create limit ctor).currentMonth) with
  | none => rfl
  | some r =>
    have h := List.find?_some hf
    have hr : r.month = (UsageTracker.create limit ctor).currentMonth := by simpa using h
    simpa [UsageTracker.create] using hr

/-- Evaluation bridge: JS `parseFloat` on the cleaned `"171.95"` input. -/
lemma parsePriceString_price : parsePriceString (.str "$171.95") = some (171.95 : ℚ) := by
  have h : parsePriceString (.str "$171.95")
      = some (1 * ((digitsToNat ['1', '7', '1'] : ℚ)
          + (digitsToNat ['9', '5'] : ℚ) / (10 : ℚ) ^ (['9', '5'] : List Char).length)) := rfl
  have d1 : digitsToNat ['1', '7', '1'] = 171 := by decide
  have d2 : digitsToNat ['9', '5'] = 95 := by decide
  rw [h, d1, d2]
  norm_num

/-- C5 counterexample: normalizing a price given as the structured object
`{current: 50, original: 75, currency: "EUR"}` does not preserve all three
fields: the transform reads `current`/`original` from the object but takes the
currency from the raw payload's top-level `currency` field (absent here), so
the normalized price carries `"USD"`, not `"EUR"`. -/
theorem spec_c5_counterexample :
    (productDataSchema { asin := some "B000000000", price := some (.obj 50 (some 75) (some "EUR")) }).map (fun pd => pd.price)
      = some (some { current := 50, original := some 75, currency := "USD" }) ∧
    (productDataSchema { asin := some "B000000000", price := some (.obj 50 (some 75) (some "EUR")) }).map (fun pd => pd.price)
      ≠ some (some { current := 50, original := some 75, currency := "EUR" }) := by
  constructor
  · rfl
  · intro h
    have h1 : (productDataSchema { asin := some "B000000000", price := some (.obj 50 (some 75) (some "EUR")) }).map (fun pd => pd.price)
      = some (some { current := 50, original := some 75, currency := "USD" }) := rfl
    rw [h1] at h
    simp only [Option.some.injEq, PriceObj.mk.injEq] at h
    exact absurd h.2.2 (by decide)

/-- C5 amended: a price given as `"$171.95"` yields `171.95` and `188` yields
`188`; for the structured object `{current: 50, original: 75, currency: "EUR"}`
the normalized price preserves `current` and `original`, but its currency is
taken from the raw payload's top-level `currency` field, defaulting to `"USD"`
(the object's own currency field is ignored), as the last conjunct shows. -/
theorem spec_c5_amended :
    (productDataSchema { asin := some "B000000000", price := some (.str "$171.95") }).map
        (fun pd => pd.price)
      = some (some { current := (171.95 : ℚ), original := none, currency := "USD" }) ∧
    (productDataSchema { asin := some "B000000000", price := some (.num 188) }).map
        (fun pd => pd.price)
      = some (some { current := 188, original := none, currency := "USD" }) ∧
    (productDataSchema { asin := some "B000000000", price := some (.obj 50 (some 75) (some "EUR")) }).map (fun pd => pd.price)
      = some (some { current := 50, original := some 75, currency := "USD" }) ∧
    (productDataSchema { asin := some "B000000000", currency := some "EUR", price := some (.obj 50 (some 75) (some "GBP")) }).map (fun pd => pd.price)
      = some (some { current := 50, original := some 75, currency := "EUR" }) := by
  refine ⟨?_, rfl, rfl, rfl⟩
  have h : (productDataSchema { asin := some "B000000000", price := some (.str "$171.95") }).map (fun pd => pd.price)
      = some ((parsePriceString (.str "$171.95")).map
          (fun c => { current := c, original := none, currency := "USD" })) := rfl
  rw [h, parsePriceString_price]
  rfl

/-- The schema result's rating is exactly the parsed-and-clamped union value. -/
lemma reviewDataSchema_rating (r : RawReview) :
    (reviewDataSchema r).map (fun d => d.rating) = reviewRatingParse r.rating := by
  unfold reviewDataSchema
  cases reviewRatingParse r.rating with
  | none => rfl
  | some q => rfl

/-- A failed rating parse rejects the whole review at the schema layer. -/
lemma reviewDataSchema_none (r : RawReview) (h : reviewRatingParse r.rating = none) :
    reviewDataSchema r = none := by
  unfold reviewDataSchema
  rw [h]

/-- C6 counterexample: a review whose rating arrives as the out-of-range
number `6` is rejected by `reviewDataSchema` (both union branches fail), not
clamped into `[1,5]` — contradicting the claim that out-of-range values of
either arrival shape are clamped rather than rejected at this layer. -/
theorem spec_c6_counterexample :
    reviewDataSchema { rating := .num 6, text := some "Great product" } = none := by
  have hv : reviewRatingParse (.num 6) = none := by
    simp only [reviewRatingParse]
    rw [if_neg]
    rintro ⟨-, h5⟩
    norm_num at h5
  exact reviewDataSchema_none _ hv

/-- C6 amended: a rating may arrive as a number or a numeric string; a string
is parsed and clamped into `[1,5]` (a non-numeric string yields `0`), while a
number must already lie in `[1,5]` — an out-of-range number fails the union
and the review is rejected at this layer. -/
theorem spec_c6_amended :
    (∀ (r : RawReview) (s : String) (q : ℚ), r.rating = .str s → jsParseFloat s = some q →
      ∃ d, reviewDataSchema r = some d ∧ d.rating = max 1 (min 5 q)
        ∧ 1 ≤ d.rating ∧ d.rating ≤ 5) ∧
    (∀ (r : RawReview) (s : String), r.rating = .str s → jsParseFloat s = none →
      ∃ d, reviewDataSchema r = some d ∧ d.rating = 0) ∧
    (∀ (r : RawReview) (q : ℚ), r.rating = .num q → (q < 1 ∨ 5 < q) →
      reviewDataSchema r = none) ∧
    (∀ (r : RawReview) (q : ℚ), r.rating = .num q → 1 ≤ q → q ≤ 5 →
      ∃ d, reviewDataSchema r = some d ∧ d.rating = q) := by
  refine ⟨?_, ?_, ?_, ?_⟩
  · intro r s q hr hp
    have hv : reviewRatingParse r.rating = some (max 1 (min 5 q)) := by
      rw [hr]
      simp only [reviewRatingParse, hp]
    have hm : (reviewDataSchema r).map (fun d => d.rating) = some (max 1 (min 5 q)) := by
      rw [reviewDataSchema_rating, hv]
    rcases Option.map_eq_some'.mp hm with ⟨d, hd, hrat⟩
    refine ⟨d, hd, hrat, ?_, ?_⟩
    · rw [hrat]; exact le_max_left 1 _
    · rw [hrat]; exact max_le (by norm_num) (min_le_left 5 q)
  · intro r s hr hp
    have hv : reviewRatingParse r.rating = some 0 := by
      rw [hr]
      simp only [reviewRatingParse, hp]
    have hm : (reviewDataSchema r).map (fun d => d.rating) = some 0 := by
      rw [reviewDataSchema_rating, hv]
    rcases Option.map_eq_some'.mp hm with ⟨d, hd, hrat⟩
    exact ⟨d, hd, hrat⟩
  · intro r q hr hout
    have hq : ¬ (1 ≤ q ∧ q ≤ 5) := by
      rintro ⟨h1, h5⟩
      rcases hout with h | h
      · linarith
      · linarith
    have hv : reviewRatingParse r.rating = none := by
      rw [hr]
      simp only [reviewRatingParse, if_neg hq]
    exact reviewDataSchema_none r hv
  · intro r q hr h1 h5
    have hv : reviewRatingParse r.rating = some q := by
      rw [hr]
      simp only [reviewRatingParse, if_pos (And.intro h1 h5)]
    have hm : (reviewDataSchema r).map (fun d => d.rating) = some q := by
      rw [reviewDataSchema_rating, hv]
    rcases Option.map_eq_some'.mp hm with ⟨d, hd, hrat⟩
    exact ⟨d, hd, hrat⟩

/-- Evaluation bridge: JS `parseFloat` on `"6"`. -/
lemma jsParseFloat_six : jsParseFloat "6" = some 6 := by
  have h : jsParseFloat "6"
      = some (1 * ((digitsToNat ['6'] : ℚ)
          + (digitsToNat ([] : List Char) : ℚ) / (10 : ℚ) ^ ([] : List Char).length)) := rfl
  have d : digitsToNat ['6'] = 6 := by decide
  have d0 : digitsToNat ([] : List Char) = 0 := rfl
  rw [h, d, d0]
  norm_num

/-- C6 amended witness: the string rating `"6"` is clamped to `5` and the
number rating `6` is rejected, at concrete inputs. -/
theorem spec_c6_amended_witness :
    (∃ d, reviewDataSchema { rating := .str "6", text := some "ok" } = some d ∧
      d.rating = max 1 (min 5 6) ∧ 1 ≤ d.rating ∧ d.rating ≤ 5) ∧
    reviewDataSchema { rating := .num 6, text := some "ok" } = none :=
  ⟨spec_c6_amended.1 { rating := .str "6", text := some "ok" } "6" 6 rfl jsParseFloat_six,
   spec_c6_amended.2.2.1 { rating := .num 6, text := some "ok" } 6 rfl
     (Or.inr (by norm_num))⟩

/-- The claim's exclusion predicate: rating outside `[1,5]`, or text empty or
whitespace-only. -/
def excludedReview (r : ReviewData) : Prop :=
  r.rating < 1 ∨ 5 < r.rating ∨ jsTrim r.text = ""

instance (r : ReviewData) : Decidable (excludedReview r) := by
  unfold excludedReview
  infer_instance

/-- The source's filter keeps exactly the non-excluded reviews. -/
lemma reviewValid_iff (r : ReviewData) : reviewValid r = true ↔ ¬ excludedReview r := by
  unfold reviewValid excludedReview
  split_ifs with h1 h2
  · simp only [false_iff, not_not]
    rcases h1 with h | h
    · exact Or.inr (Or.inr (by rw [h]; rfl))
    · exact Or.inr (Or.inr h)
  · simp only [false_iff, not_not]
    rcases h2 with h | h | h
    · exact Or.inl (by rw [h]; norm_num)
    · exact Or.inl h
    · exact Or.inr (Or.inl h)
  · push_neg at h1 h2
    simp only [true_iff]
    rintro (h | h | h)
    · linarith [h2.2.1]
    · linarith [h2.2.2]
    · exact absurd h h1.2

/-- A filtered-in review is processed successfully (the per-item try/catch
cannot fire after the filter). -/
lemma processReviewItem_isSome (jsDate : String → Option Int) (fid pid : String)
    (r : ReviewData) (h : reviewValid r = true) :
    (processReviewItem jsDate fid pid r).isSome := by
  have hne := (reviewValid_iff r).mp h
  unfold excludedReview at hne
  push_neg at hne
  unfold processReviewItem validateRating
  rw [if_neg]
  · rfl
  · rintro (h1 | h5)
    · linarith [hne.1]
    · linarith [hne.2.1]

/-- Indexed map then `filterMap id` preserves length when every element maps
to `some`. -/
lemma length_mapIdx_filterMap {α β : Type} (l : List α) (f : Nat → α → Option β)
    (hf : ∀ i, ∀ r ∈ l, (f i r).isSome) :
    ((l.mapIdx f).filterMap id).length = l.length := by
  induction l generalizing f with
  | nil => rfl
  | cons a t ih =>
    have ha := hf 0 a (List.mem_cons_self a t)
    cases hfa : f 0 a with
    | none => rw [hfa] at ha; cases ha
    | some b =>
      rw [List.mapIdx_cons, hfa]
      simp only [List.filterMap_cons, id_eq, List.length_cons]
      rw [ih (fun i => f (i + 1)) (fun i r hr => hf (i + 1) r (List.mem_cons_of_mem a hr))]

/-- Length of the kept elements is the total minus the dropped count. -/
lemma length_filter_not {α : Type} (l : List α) (p : α → Bool) :
    (l.filter (fun a => ! p a)).length = l.length - l.countP p := by
  induction l with
  | nil => rfl
  | cons a t ih =>
    have hle : t.countP p ≤ t.length := t.countP_le_length p
    cases ha : p a <;>
      simp [List.filter_cons, List.countP_cons, ha, ih] <;> omega

/-- C7: `processReviews` excludes exactly the inputs with rating outside
`[1,5]` or empty/whitespace-only text — dropping the excluded inputs leaves
the output unchanged, and the output length is the input count minus the
number of excluded entries. -/
theorem spec_c7 : ∀ (jsDate : String → Option Int) (ids : Nat → String)
    (resp : ReviewsResponse) (pid : String),
    processReviews jsDate ids
        { resp with reviews := resp.reviews.filter (fun r => ! decide (excludedReview r)) } pid
      = processReviews jsDate ids resp pid ∧
    (processReviews jsDate ids resp pid).length
      = resp.reviews.length - resp.reviews.countP (fun r => decide (excludedReview r)) := by
  intro jsDate ids resp pid
  have hpt : ∀ r, reviewValid r = ! decide (excludedReview r) := by
    intro r
    by_cases h : excludedReview r
    · rw [decide_eq_true h, Bool.not_true]
      cases hv : reviewValid r
      · rfl
      · exact absurd h ((reviewValid_iff r).mp hv)
    · rw [decide_eq_false h, Bool.not_false]
      exact (reviewValid_iff r).mpr h
  constructor
  · unfold processReviews
    dsimp only
    rw [List.filter_filter]
    have hfe : resp.reviews.filter (fun a => reviewValid a && ! decide (excludedReview a))
        = resp.reviews.filter (fun a => reviewValid a) := by
      apply List.filter_congr
      intro r _
      rw [hpt r]
      cases decide (excludedReview r) <;> rfl
    rw [hfe]
  · unfold processReviews
    rw [length_mapIdx_filterMap]
    · have hfe2 : resp.reviews.filter reviewValid
          = resp.reviews.filter (fun a => ! decide (excludedReview a)) := by
        apply List.filter_congr
        intro r _
        exact hpt r
      rw [hfe2, length_filter_not]
    · intro i r hr
      exact processReviewItem_isSome jsDate (ids i) pid r (List.of_mem_filter hr)


/-- Count of page-fetch events in a usage trace. -/
def fetchCount (tr : List UEv) : Nat :=
  tr.countP (fun e => match e with | .fetch _ => true | _ => false)

/-- The event pattern of one usage-gated page access: check, fetch, record. -/
def evTriple (p : Nat) : List UEv := [.check, .fetch p, .record]

/-- The additional-page loop performs at most `fuel` fetches, whatever the
usage tracker answers. -/
lemma reviewLoop_fetchCount (allow : Nat → Bool) (pages : Nat → ReviewsResponse) (l : Nat) :
    ∀ fuel page acc checks, fetchCount (reviewLoop allow pages l fuel page acc checks).2 ≤ fuel := by
  intro fuel
  induction fuel with
  | zero =>
    intro page acc checks
    simp [reviewLoop, fetchCount]
  | succ n ih =>
    intro page acc checks
    by_cases h1 : acc.length < l ∧ page ≤ 5
    · by_cases h2 : allow checks = true
      · by_cases h3 : (pages page).reviews.length = 0
        · simp only [reviewLoop, if_pos h1, h2, if_true, if_pos h3]
          simp [fetchCount]
        · simp only [reviewLoop, if_pos h1, h2, if_true, if_neg h3]
          simp only [fetchCount, List.countP_append]
          have := ih (page + 1) (acc ++ (pages page).reviews) (checks + 1)
          simp only [fetchCount] at this
          simp [List.countP_cons]
          omega
      · simp only [reviewLoop, if_pos h1]
        rw [if_neg h2]
        simp [fetchCount]
    · simp only [reviewLoop, if_neg h1]
      simp [fetchCount]

/-- Structure of the additional-page loop when every usage check passes:
starting at `page` (with `fuel + page = 6`), it fetches the consecutive pages
`page..k` for some `k ≤ 5`, each as a check/fetch/record triple, never shrinks
the accumulator, and stops because the limit was met, the last fetched page
was empty, or page 5 was reached. -/
lemma reviewLoop_spec (pages : Nat → ReviewsResponse) (l : Nat)
    (allow : Nat → Bool) (hallow : ∀ n, allow n = true) :
    ∀ fuel page acc checks, fuel + page = 6 → 2 ≤ page →
    ∃ k res,
      page - 1 ≤ k ∧ k ≤ 5 ∧
      reviewLoop allow pages l fuel page acc checks
        = (.ok res, ((List.range' page (k + 1 - page)).map evTriple).flatten) ∧
      acc.length ≤ res.length ∧
      (l ≤ res.length ∨ (page ≤ k ∧ (pages k).reviews = []) ∨ k = 5) := by
  intro fuel
  induction fuel with
  | zero =>
    intro page acc checks hfp hp2
    have hp6 : page = 6 := by omega
    subst hp6
    refine ⟨5, acc, by omega, le_refl 5, ?_, le_refl _, Or.inr (Or.inr rfl)⟩
    simp [reviewLoop]
  | succ n ih =>
    intro page acc checks hfp hp2
    by_cases h1 : acc.length < l ∧ page ≤ 5
    · have ha := hallow checks
      by_cases h3 : (pages page).reviews.length = 0
      · refine ⟨page, acc ++ (pages page).reviews, by omega, h1.2, ?_, ?_, ?_⟩
        · simp only [reviewLoop, if_pos h1, ha, if_true, if_pos h3]
          have hr : page + 1 - page = 1 := by omega
          rw [hr]
          simp [evTriple]
        · simp
        · exact Or.inr (Or.inl ⟨le_refl page, List.length_eq_zero.mp h3⟩)
      · have hrec := ih (page + 1) (acc ++ (pages page).reviews) (checks + 1)
          (by omega) (by omega)
        rcases hrec with ⟨k, res, hk1, hk5, heq, hlen, hstop⟩
        refine ⟨k, res, by omega, hk5, ?_, ?_, ?_⟩
        · simp only [reviewLoop, if_pos h1, ha, if_true, if_neg h3]
          rw [heq]
          have hpk : page ≤ k := by omega
          have hn : k + 1 - page = (k - page) + 1 := by omega
          rw [hn, List.range'_succ, List.map_cons, List.flatten_cons]
          have hn2 : k + 1 - (page + 1) = k - page := by omega
          rw [hn2]
          rfl
        · calc acc.length ≤ (acc ++ (pages page).reviews).length := by simp
            _ ≤ res.length := hlen
        · rcases hstop with h | ⟨hpk, hpe⟩ | h
          · exact Or.inl h
          · exact Or.inr (Or.inl ⟨by omega, hpe⟩)
          · exact Or.inr (Or.inr h)
    · refine ⟨page - 1, acc, le_refl _, by omega, ?_, le_refl _, ?_⟩
      · simp only [reviewLoop, if_neg h1]
        have hz : page - 1 + 1 - page = 0 := by omega
        rw [hz]
        rfl
      · have hp5 : page ≤ 5 := by omega
        rcases not_and_or.mp h1 with h | h
        · exact Or.inl (le_of_not_lt h)
        · exact absurd hp5 h


/-- C4 counterexample: a call to `collectReviews` with the limit `0` (falsy in
the source's `if (options.limit ...)` tests) returns the raw page-1 reviews
unsliced — here a list of length 1, exceeding the limit 0 — refuting the claim
for every call with a limit. -/
theorem spec_c4_counterexample :
    ((collectReviews (fun _ => true)
        (fun _ => { reviews := [{ rating := 5, text := "Great", author := "A" }], averageRating := 5, totalReviews := 1 })
        (some 0)).1.toOption.map
      (fun resp => resp.reviews.length)) = some 1 ∧ ¬ (1 ≤ 0) :=
  ⟨rfl, by decide⟩

/-- C4 amended (restricted to positive limits; `limit: 0` is falsy in the
source's `if (options.limit ...)` tests, which disables both the pagination
loop and the final slice): with a positive limit the collector fetches page 1
first and then consecutive further pages, each page preceded by a usage-limit
check and followed by recording one usage unit; at most 5 pages are fetched,
every successful result has at most `limit` reviews, and when every check
passes the fetching stopped because the limit was met, the last fetched page
returned zero reviews, or 5 pages had been fetched. -/
theorem spec_c4_amended : ∀ (allow : Nat → Bool) (pages : Nat → ReviewsResponse) (l : Nat),
    0 < l →
    fetchCount (collectReviews allow pages (some l)).2 ≤ 5 ∧
    (∀ resp, (collectReviews allow pages (some l)).1 = .ok resp →
      resp.reviews.length ≤ l) ∧
    ((∀ n, allow n = true) →
      ∃ k resp, 1 ≤ k ∧ k ≤ 5 ∧
        (collectReviews allow pages (some l)).1 = .ok resp ∧
        (collectReviews allow pages (some l)).2 = ((List.range' 1 k).map evTriple).flatten ∧
        resp.reviews.length ≤ l ∧
        (resp.reviews.length = l ∨ (pages k).reviews = [] ∨ k = 5)) := by
  intro allow pages l hl
  have hlne : l ≠ 0 := by omega
  by_cases hA : allow 0 = true
  · by_cases hlt : (pages 1).reviews.length < l
    · have hcond : l ≠ 0 ∧ (pages 1).reviews.length < l := ⟨hlne, hlt⟩
      have hunf : collectReviews allow pages (some l)
          = ((reviewLoop allow pages l 4 2 (pages 1).reviews 1).1.map (fun all =>
              { reviews := all.take l
                averageRating := (pages 1).averageRating
                totalReviews := (pages 1).totalReviews }),
            [UEv.check, UEv.fetch 1, UEv.record]
              ++ (reviewLoop allow pages l 4 2 (pages 1).reviews 1).2) := by
        simp only [collectReviews, hA, if_true, if_pos hcond]
      refine ⟨?_, ?_, ?_⟩
      · rw [hunf]
        simp only [fetchCount, List.countP_append]
        have hb := reviewLoop_fetchCount allow pages l 4 2 (pages 1).reviews 1
        simp only [fetchCount] at hb
        have h1 : List.countP (fun e => match e with | UEv.fetch _ => true | _ => false)
            [UEv.check, UEv.fetch 1, UEv.record] = 1 := rfl
        omega
      · intro resp hresp
        rw [hunf] at hresp
        cases hrl : (reviewLoop allow pages l 4 2 (pages 1).reviews 1).1 with
        | error e =>
          rw [hrl] at hresp
          simp only [Except.map] at hresp
          exact Except.noConfusion hresp
        | ok all =>
          rw [hrl] at hresp
          simp only [Except.map, Except.ok.injEq] at hresp
          rw [← hresp]
          simp only [List.length_take]
          exact min_le_left _ _
      · intro hallow
        rcases reviewLoop_spec pages l allow hallow 4 2 (pages 1).reviews 1 rfl (le_refl 2)
          with ⟨k, res, hk1, hk5, heq, hlen2, hstop⟩
        refine ⟨k, { reviews := res.take l
                     averageRating := (pages 1).averageRating
                     totalReviews := (pages 1).totalReviews }, by omega, hk5, ?_, ?_, ?_, ?_⟩
        · rw [hunf, heq]
          rfl
        · rw [hunf, heq]
          have hk : k = (k - 1) + 1 := by omega
          conv_rhs => rw [hk, List.range'_succ]
          rw [List.map_cons, List.flatten_cons]
          have h21 : k + 1 - 2 = k - 1 := by omega
          rw [h21]
          rfl
        · simp only [List.length_take]
          exact min_le_left _ _
        · rcases hstop with h | hpe | h
          · left
            simp only [List.length_take]
            omega
          · right; left; exact hpe.2
          · right; right; exact h
    · have hcond : ¬ (l ≠ 0 ∧ (pages 1).reviews.length < l) := by
        rintro ⟨-, h⟩
        exact hlt h
      have hunf : collectReviews allow pages (some l)
          = (.ok { reviews := (pages 1).reviews.take l
                   averageRating := (pages 1).averageRating
                   totalReviews := (pages 1).totalReviews },
             [UEv.check, UEv.fetch 1, UEv.record]) := by
        simp only [collectReviews, hA, if_true, if_neg hcond, if_pos hlne]
      refine ⟨?_, ?_, ?_⟩
      · rw [hunf]
        show (1 : Nat) ≤ 5
        omega
      · intro resp hresp
        rw [hunf] at hresp
        simp only [Except.ok.injEq] at hresp
        rw [← hresp]
        simp only [List.length_take]
        exact min_le_left _ _
      · intro hallow
        refine ⟨1, { reviews := (pages 1).reviews.take l
                     averageRating := (pages 1).averageRating
                     totalReviews := (pages 1).totalReviews },
            le_refl 1, by omega, ?_, ?_, ?_, ?_⟩
        · rw [hunf]
        · rw [hunf]
          rfl
        · simp only [List.length_take]
          exact min_le_left _ _
        · left
          simp only [List.length_take]
          omega
  · have hunf : collectReviews allow pages (some l) = (.error quotaMsg, [UEv.check]) := by
      simp only [collectReviews]
      rw [if_neg hA]
    refine ⟨?_, ?_, ?_⟩
    · rw [hunf]
      show (0 : Nat) ≤ 5
      omega
    · intro resp hresp
      rw [hunf] at hresp
      exact Except.noConfusion hresp
    · intro hallow
      exact absurd (hallow 0) hA


/-- Fixed single-review pages used by the C4 witness. -/
def witnessPages : Nat → ReviewsResponse :=
  fun _ => { reviews := [{ rating := 5, text := "Great", author := "A" }], averageRating := 5, totalReviews := 1 }

/-- C4 amended witness: limit `3` against single-review pages; the
positive-limit hypothesis is discharged at `3` and the check-passing
hypothesis by `rfl`. -/
theorem spec_c4_amended_witness :
    fetchCount (collectReviews (fun _ => true) witnessPages (some 3)).2 ≤ 5 ∧
    (∃ k resp, 1 ≤ k ∧ k ≤ 5 ∧
      (collectReviews (fun _ => true) witnessPages (some 3)).1 = .ok resp ∧
      (collectReviews (fun _ => true) witnessPages (some 3)).2
        = ((List.range' 1 k).map evTriple).flatten ∧
      resp.reviews.length ≤ 3 ∧
      (resp.reviews.length = 3 ∨ (witnessPages k).reviews = [] ∨ k = 5)) :=
  ⟨(spec_c4_amended (fun _ => true) witnessPages 3 (by decide)).1,
   (spec_c4_amended (fun _ => true) witnessPages 3 (by decide)).2.2 (fun _ => rfl)⟩

/-- `find?` by id skips a block with no matching row. -/
lemma findJob_append_none (t1 t2 : List ScrapeJob) (jobId : String)
    (h : findJob t1 jobId = none) : findJob (t1 ++ t2) jobId = findJob t2 jobId := by
  induction t1 with
  | nil => rfl
  | cons a t ih =>
    unfold findJob at h ih ⊢
    rw [List.cons_append]
    cases ha : a.id == jobId with
    | true =>
      rw [List.find?_cons_of_pos] at h
      · exact Option.noConfusion h
      · exact ha
    | false =>
      rw [List.find?_cons_of_neg] at h
      · rw [List.find?_cons_of_neg]
        · exact ih h
        · simp [ha]
      · simp [ha]

/-- After a dequeue that proceeds, the job record exists and is running. -/
lemma dequeue_proceed_running (jobId : String) (jobData : JobData) (now : Nat)
    (conc : Option ScrapeJob) (fault : Option String) (t jobs1 : List ScrapeJob)
    (h : dequeueStep jobId jobData now conc fault t = .ok (jobs1, .proceed)) :
    ∃ r, findJob jobs1 jobId = some r ∧ r.status = .running := by
  unfold dequeueStep at h
  cases hfind : findJob t jobId with
  | some existing =>
    rw [hfind] at h
    dsimp only at h
    by_cases hs : existing.status = .suspended
    · rw [if_pos hs] at h
      simp at h
    · rw [if_neg hs] at h
      have h2 : setRunning t jobId now = jobs1 := by
        injection h with h3
        exact congrArg Prod.fst h3
      rw [← h2]
      unfold setRunning
      rw [findJob_map_update t jobId
        (fun j => { j with status := JobStatus.running, startedAt := some now, updatedAt := now })
        (fun j => rfl), hfind]
      exact ⟨_, rfl, rfl⟩
  | none =>
    rw [hfind] at h
    dsimp only at h
    generalize hT : (match conc with | some c => t ++ [c] | none => t) = t1 at h
    by_cases hs : (findJob t1 jobId).isSome
    · rw [if_pos hs] at h
      rcases Option.isSome_iff_exists.mp hs with ⟨r0, hr0⟩
      rw [hr0] at h
      have h2 : setRunning t1 jobId now = jobs1 := by
        injection h with h3
        exact congrArg Prod.fst h3
      rw [← h2]
      unfold setRunning
      rw [findJob_map_update t1 jobId
        (fun j => { j with status := JobStatus.running, startedAt := some now, updatedAt := now })
        (fun j => rfl), hr0]
      exact ⟨_, rfl, rfl⟩
    · rw [if_neg hs] at h
      cases hfa : fault with
      | some e =>
        rw [hfa] at h
        exact Except.noConfusion h
      | none =>
        rw [hfa] at h
        have h2 : t1 ++ [newRunningRecord jobId jobData now] = jobs1 := by
          injection h with h3
          exact congrArg Prod.fst h3
        rw [← h2]
        rw [findJob_append_none _ _ _ (Option.not_isSome_iff_eq_none.mp hs)]
        refine ⟨newRunningRecord jobId jobData now, ?_, rfl⟩
        unfold findJob
        rw [List.find?_cons_of_pos]
        show ((newRunningRecord jobId jobData now).id == jobId) = true
        simp [newRunningRecord]


/-- C2: a job whose persisted record is suspended at dequeue time is skipped
with no side effects: for every choice of handlers, fetch results and platform
functions, `processJob` returns the store exactly unchanged (no running mark,
no dispatch writes, no completion or failure mark) and reports no error. -/
theorem spec_c2 : ∀ (h : HandlerOracles) (fetchProduct : Except String (Option ProductData))
    (fetchReviews : Except String ReviewsResponse) (urlValid : String → Bool)
    (jsDate : String → Option Int) (ids : Nat → String) (jobId : String) (jobData : JobData)
    (now : Nat) (concurrent : Option ScrapeJob) (insertFault : Option String) (db : Db)
    (rec : ScrapeJob),
    findJob db.jobs jobId = some rec → rec.status = JobStatus.suspended →
    processJob h fetchProduct fetchReviews urlValid jsDate ids jobId jobData now
      concurrent insertFault db = (db, none) := by
  intro h fp fr uv jd ids jobId jobData now conc fault db rec hfind hsusp
  unfold processJob dequeueStep
  rw [hfind]
  dsimp only
  rw [if_pos hsusp]

/-- C2 witness: a concrete suspended record is skipped verbatim. -/
theorem spec_c2_witness :
    processJob ⟨fun d => (d, none), fun d => (d, none), fun d => (d, none)⟩
      (.ok none) (.ok { reviews := [], averageRating := 0, totalReviews := 0 })
      (fun _ => true) (fun _ => none) (fun _ => "")
      "j1" { type := JobType.product, asin := some "B000000000" } 7 none none
      { jobs := [{ id := "j1", type := JobType.product, status := JobStatus.suspended }], products := [], prices := [], reviews := [] }
      = ({ jobs := [{ id := "j1", type := JobType.product, status := JobStatus.suspended }], products := [], prices := [], reviews := [] }, none) :=
  spec_c2 ⟨fun d => (d, none), fun d => (d, none), fun d => (d, none)⟩
    (.ok none) (.ok { reviews := [], averageRating := 0, totalReviews := 0 })
    (fun _ => true) (fun _ => none) (fun _ => "")
    "j1" { type := JobType.product, asin := some "B000000000" } 7 none none
    { jobs := [{ id := "j1", type := JobType.product, status := JobStatus.suspended }], products := [], prices := [], reviews := [] }
    { id := "j1", type := JobType.product, status := JobStatus.suspended }
    rfl rfl

/-- C3: for a product job with ASIN `a` that proceeds past dequeue, when the
fetch yields no validated product: if a record for `a` already exists the
handler is a soft no-op — products, prices and reviews are untouched and the
job record is marked completed (non-failed); if no record exists the handler
throws, the job record is marked failed with the descriptive message
`noFetchMsg a`, and the error propagates. -/
theorem spec_c3 : ∀ (h : HandlerOracles) (fetchReviews : Except String ReviewsResponse)
    (urlValid : String → Bool) (jsDate : String → Option Int) (ids : Nat → String)
    (jobId : String) (jobData : JobData) (now : Nat) (conc : Option ScrapeJob)
    (fault : Option String) (db : Db) (jobs1 : List ScrapeJob) (a : String),
    jobData.type = JobType.product → jobData.asin = some a → a ≠ "" →
    dequeueStep jobId jobData now conc fault db.jobs = .ok (jobs1, .proceed) →
    (((db.products.find? (fun p => p.asin == a)).isSome →
      processJob h (.ok none) fetchReviews urlValid jsDate ids jobId jobData now conc fault db
          = ({ db with jobs := markCompleted jobs1 jobId now }, none) ∧
      ∃ r, findJob (markCompleted jobs1 jobId now) jobId = some r ∧
        r.status = JobStatus.completed) ∧
     ((db.products.find? (fun p => p.asin == a)) = none →
      processJob h (.ok none) fetchReviews urlValid jsDate ids jobId jobData now conc fault db
          = ({ db with jobs := markFailed jobs1 jobId (noFetchMsg a) now },
             some (noFetchMsg a)) ∧
      ∃ r, findJob (markFailed jobs1 jobId (noFetchMsg a) now) jobId = some r ∧
        r.status = JobStatus.failed ∧ r.error = some (noFetchMsg a))) := by
  intro h fr uv jd ids jobId jobData now conc fault db jobs1 a htype hasin hane hdeq
  rcases dequeue_proceed_running jobId jobData now conc fault db.jobs jobs1 hdeq
    with ⟨r0, hr0, hrun0⟩
  constructor
  · intro hex
    constructor
    · unfold processJob
      rw [hdeq]
      dsimp only
      rw [htype]
      dsimp only
      unfold processProductJob
      rw [hasin]
      dsimp only
      rw [if_neg hane, if_pos hex]
    · refine ⟨{ r0 with status := JobStatus.completed, completedAt := some now, updatedAt := now }, ?_, rfl⟩
      unfold markCompleted
      rw [findJob_map_update jobs1 jobId
        (fun j => { j with status := JobStatus.completed, completedAt := some now, updatedAt := now })
        (fun j => rfl), hr0]
      rfl
  · intro hnone
    have hnex : ¬ ((db.products.find? (fun p => p.asin == a)).isSome = true) := by
      rw [hnone]
      simp
    constructor
    · unfold processJob
      rw [hdeq]
      dsimp only
      rw [htype]
      dsimp only
      unfold processProductJob
      rw [hasin]
      dsimp only
      rw [if_neg hane, if_neg hnex]
    · refine ⟨{ r0 with status := JobStatus.failed, error := some (noFetchMsg a), completedAt := some now, updatedAt := now }, ?_, rfl, rfl⟩
      unfold markFailed
      rw [findJob_map_update jobs1 jobId
        (fun j => { j with status := JobStatus.failed, error := some (noFetchMsg a), completedAt := some now, updatedAt := now })
        (fun j => rfl), hr0]
      rfl


/-- Trivial handler oracles used by the concrete worker witnesses. -/
def trivialHandlers : HandlerOracles :=
  ⟨fun d => (d, none), fun d => (d, none), fun d => (d, none)⟩

/-- An empty reviews response used by the concrete worker witnesses. -/
def emptyReviews : ReviewsResponse := { reviews := [], averageRating := 0, totalReviews := 0 }

/-- The product-job payload used by the concrete worker witnesses. -/
def productJobData : JobData := { type := JobType.product, asin := some "B000000000" }

/-- A store holding a pending record for job `j1` and a product row for the
witness ASIN. -/
def dbWithProduct : Db :=
  { jobs := [{ id := "j1", type := JobType.product, status := JobStatus.pending }]
    products := [{ id := "p1", asin := "B000000000", title := "T" }]
    prices := []
    reviews := [] }

/-- A store holding a pending record for job `j1` and no products. -/
def dbNoProduct : Db :=
  { jobs := [{ id := "j1", type := JobType.product, status := JobStatus.pending }]
    products := []
    prices := []
    reviews := [] }

/-- C3 witness: with the fetch yielding no product, the store with an existing
row for the ASIN ends completed and untouched, and the store without one ends
failed with the descriptive message. -/
theorem spec_c3_witness :
    (processJob trivialHandlers (.ok none) (.ok emptyReviews) (fun _ => true) (fun _ => none)
        (fun _ => "") "j1" productJobData 7 none none dbWithProduct
        = ({ dbWithProduct with
            jobs := markCompleted (setRunning dbWithProduct.jobs "j1" 7) "j1" 7 }, none) ∧
      ∃ r, findJob (markCompleted (setRunning dbWithProduct.jobs "j1" 7) "j1" 7) "j1" = some r ∧
        r.status = JobStatus.completed) ∧
    (processJob trivialHandlers (.ok none) (.ok emptyReviews) (fun _ => true) (fun _ => none)
        (fun _ => "") "j1" productJobData 7 none none dbNoProduct
        = ({ dbNoProduct with
            jobs := markFailed (setRunning dbNoProduct.jobs "j1" 7) "j1" (noFetchMsg "B000000000") 7 },
           some (noFetchMsg "B000000000")) ∧
      ∃ r, findJob (markFailed (setRunning dbNoProduct.jobs "j1" 7) "j1" (noFetchMsg "B000000000") 7) "j1"
          = some r ∧ r.status = JobStatus.failed ∧ r.error = some (noFetchMsg "B000000000")) :=
  ⟨(spec_c3 trivialHandlers (.ok emptyReviews) (fun _ => true) (fun _ => none) (fun _ => "")
      "j1" productJobData 7 none none dbWithProduct (setRunning dbWithProduct.jobs "j1" 7)
      "B000000000" rfl rfl (by decide) rfl).1 rfl,
   (spec_c3 trivialHandlers (.ok emptyReviews) (fun _ => true) (fun _ => none) (fun _ => "")
      "j1" productJobData 7 none none dbNoProduct (setRunning dbNoProduct.jobs "j1" 7)
      "B000000000" rfl rfl (by decide) rfl).2 rfl⟩

/-- A non-duplicate insert failure at dequeue time propagates out of the
dequeue protocol. -/
lemma dequeueStep_fault (t : List ScrapeJob) (jobId : String) (jobData : JobData)
    (now : Nat) (e : String) (hfind : findJob t jobId = none) :
    dequeueStep jobId jobData now none (some e) t = .error e := by
  unfold dequeueStep
  rw [hfind]
  dsimp only
  rw [hfind]
  rfl

/-- C1: the dequeue-time reconciliation.  First conjunct: when the record was
absent at select time and a concurrent insert for the same id landed before
the worker's insert, the resulting uniqueness conflict is absorbed — the
worker re-reads and updates the record to running, no error surfaces, and
exactly one stored record carries the job id, in running state.  Second and
third conjuncts: an insert failure that is not a uniqueness conflict is
rethrown by the dequeue step and propagates out of `processJob`. -/
theorem spec_c1 :
    (∀ (t : List ScrapeJob) (jobId : String) (jobData : JobData) (now : Nat)
        (c : ScrapeJob) (fault : Option String),
      findJob t jobId = none → c.id = jobId →
      dequeueStep jobId jobData now (some c) fault t
          = .ok (setRunning (t ++ [c]) jobId now, .proceed) ∧
      ((setRunning (t ++ [c]) jobId now).filter (fun j => j.id == jobId)).map
          (fun j => j.status) = [JobStatus.running]) ∧
    (∀ (t : List ScrapeJob) (jobId : String) (jobData : JobData) (now : Nat) (e : String),
      findJob t jobId = none →
      dequeueStep jobId jobData now none (some e) t = .error e) ∧
    (∀ (h : HandlerOracles) (fp : Except String (Option ProductData))
        (fr : Except String ReviewsResponse) (uv : String → Bool) (jd : String → Option Int)
        (ids : Nat → String) (jobId : String) (jobData : JobData) (now : Nat) (e : String)
        (db : Db),
      findJob db.jobs jobId = none →
      (processJob h fp fr uv jd ids jobId jobData now none (some e) db).2 = some e) := by
  refine ⟨?_, ?_, ?_⟩
  · intro t jobId jobData now c fault hfind hc
    have hfc : findJob (t ++ [c]) jobId = some c := by
      rw [findJob_append_none t [c] jobId hfind]
      unfold findJob
      rw [List.find?_cons_of_pos]
      show (c.id == jobId) = true
      simp [hc]
    constructor
    · unfold dequeueStep
      rw [hfind]
      dsimp only
      rw [hfc]
      rfl
    · unfold setRunning
      rw [filterJob_map_update (t ++ [c]) jobId
        (fun j => { j with status := JobStatus.running, startedAt := some now, updatedAt := now })
        (fun j => rfl)]
      rw [List.filter_append, findJob_none_filter t jobId hfind]
      have hcf : ([c].filter (fun j => j.id == jobId)) = [c] := by
        rw [List.filter_cons_of_pos]
        · rfl
        · simp [hc]
      rw [hcf]
      rfl
  · intro t jobId jobData now e hfind
    exact dequeueStep_fault t jobId jobData now e hfind
  · intro h fp fr uv jd ids jobId jobData now e db hfind
    unfold processJob
    rw [dequeueStep_fault db.jobs jobId jobData now e hfind]

/-- C1 witness: with an empty job table, a racing insert of the record for
`j1` is absorbed into the update-to-running path, leaving exactly one running
record; an injected non-duplicate failure `"db down"` propagates from the
dequeue step and from `processJob`. -/
theorem spec_c1_witness :
    (dequeueStep "j1" productJobData 7
        (some { id := "j1", type := JobType.product, status := JobStatus.pending }) none []
        = .ok (setRunning ([] ++ [{ id := "j1", type := JobType.product, status := JobStatus.pending }]) "j1" 7, .proceed) ∧
      ((setRunning ([] ++ [{ id := "j1", type := JobType.product, status := JobStatus.pending }]) "j1" 7).filter
          (fun j => j.id == "j1")).map (fun j => j.status) = [JobStatus.running]) ∧
    dequeueStep "j1" productJobData 7 none (some "db down") [] = .error "db down" ∧
    (processJob trivialHandlers (.ok none) (.ok emptyReviews) (fun _ => true) (fun _ => none)
        (fun _ => "") "j1" productJobData 7 none (some "db down")
        { jobs := [], products := [], prices := [], reviews := [] }).2 = some "db down" :=
  ⟨spec_c1.1 [] "j1" productJobData 7
      { id := "j1", type := JobType.product, status := JobStatus.pending } none rfl rfl,
   spec_c1.2.1 [] "j1" productJobData 7 "db down" rfl,
   spec_c1.2.2 trivialHandlers (.ok none) (.ok emptyReviews) (fun _ => true) (fun _ => none)
     (fun _ => "") "j1" productJobData 7 "db down"
     { jobs := [], products := [], prices := [], reviews := [] } rfl⟩

end Datazone